import Mathlib

/-!
Verification of the telemost-bitrix-app conference-synchronization logic.

This development shallowly embeds the parts of the repository that the
spec's testable properties talk about:

* `src/database.py` — the SQLite-backed conference repository
  (`save_conference`, `get_user_conferences`, `get_conference_by_id`,
  `delete_conference`), including the schema constraints of `init_db`
  (NOT NULL on name/type/owner_id/owner_name, CHECK on type,
  UNIQUE on link, AUTOINCREMENT id, server-assigned created_at/updated_at).
* `src/app.py` — the `/api/conferences` route handlers
  (`get_conferences`, `create_conference`, `update_conference`,
  `delete_conference`) and `get_user_from_request`.
* `src/models/telemost.py` — `TelemostAPI.api_call` and
  `TelemostAPI.get_conferences`.

Python dynamic values are modelled by the small inductive `SVal`
(strings, integers, booleans, string lists, None), JSON values returned
by the remote API by `JVal`, and dicts by association lists with
Python's `dict.get` lookup semantics.
-/

namespace TelemostSpec

/-- Python value as it appears in the conference dicts of the app:
a string, an integer, a boolean, a list of strings (cohost emails),
or `None`. -/
inductive SVal where
  | vs (s : String)
  | vn (n : Int)
  | vb (b : Bool)
  | varr (xs : List String)
  | vnull
  deriving Repr, DecidableEq

/-- Python truthiness of an `SVal` (`bool(x)`): empty string, zero,
`False`, empty list and `None` are falsy. -/
def pyTruthy : SVal → Bool
  | .vs s => !(s = "")
  | .vn n => !(n = 0)
  | .vb b => b
  | .varr xs => !(xs = [])
  | .vnull => false

/-- Binding an `SVal` into a SQLite TEXT NOT NULL column: strings pass
through, integers and booleans are converted by TEXT affinity
(booleans are bound as 0/1 integers first), `None` violates NOT NULL
and a list is not a valid SQLite parameter — both make the INSERT fail. -/
def textOf : SVal → Option String
  | .vs s => some s
  | .vn n => some (toString n)
  | .vb b => some (if b then "1" else "0")
  | .vnull => none
  | .varr _ => none

/-- Binding an `SVal` into a nullable SQLite TEXT column: like `textOf`
but `None` is stored as NULL; a list still fails the bind. -/
def storeText : SVal → Option SVal
  | .vs s => some (.vs s)
  | .vn n => some (.vs (toString n))
  | .vb b => some (.vs (if b then "1" else "0"))
  | .vnull => some .vnull
  | .varr _ => none

/-- Decimal value of a digit list. -/
def digitsVal (cs : List Char) : Nat :=
  cs.foldl (fun a c => a * 10 + (c.toNat - 48)) 0

/-- SQLite's recognition of text as a well-formed integer literal (an
optional sign followed by one or more digits, nothing else), as used
when NUMERIC affinity is applied to a bound TEXT value: such text is
stored as an INTEGER. Leading zeros are accepted (`'007'` stores 7). -/
def parseIntText (s : String) : Option Int :=
  match s.data with
  | [] => none
  | c :: rest =>
    if c == '-' then
      if !rest.isEmpty && rest.all Char.isDigit
      then some (-(digitsVal rest : Int)) else none
    else if c == '+' then
      if !rest.isEmpty && rest.all Char.isDigit
      then some ((digitsVal rest : Int)) else none
    else if (c :: rest).all Char.isDigit then some ((digitsVal (c :: rest) : Int))
    else none

/-- Binding an `SVal` into a NUMERIC-affinity column (the `DATE`,
`TIME` and `BOOLEAN` columns of the schema): integer-literal text is
converted to the INTEGER it denotes, other text is kept (real-literal
text, converted by the engine through floating point, is outside every
theorem's region and the 64-bit overflow fallback is likewise not
modelled); booleans are bound as the integers 0/1, integers kept,
`None` stored as NULL; a list fails the bind. -/
def storeNumeric : SVal → Option SVal
  | .vs s => some (match parseIntText s with
                   | some n => .vn n
                   | none => .vs s)
  | .vn n => some (.vn n)
  | .vb b => some (.vn (if b then 1 else 0))
  | .vnull => some .vnull
  | .varr _ => none

/-- A Python dict with `SVal` values, as an association list. -/
abbrev RawConf := List (String × SVal)

/-- `d.get(k)` returning `Option`: `some v` when the key is present. -/
def rawGet (r : RawConf) (k : String) : Option SVal :=
  (r.find? (fun p => p.1 = k)).map (fun p => p.2)

/-- `d.get(k, default)`. -/
def rawGetD (r : RawConf) (k : String) (d : SVal) : SVal :=
  (rawGet r k).getD d

/-- `d.get(k)` with Python's implicit `None` default. -/
def rawGetV (r : RawConf) (k : String) : SVal :=
  rawGetD r k .vnull

/-- Caller identity as produced by `get_user_from_request` in app.py. -/
structure UserInfo where
  uid : String
  uname : String
  deriving Repr, DecidableEq

/-- `params.get(k)` on the merged request parameters. -/
def lookupParam (params : List (String × String)) (k : String) : Option String :=
  (params.find? (fun p => p.1 = k)).map (fun p => p.2)

/-- `get_user_from_request` (app.py lines 118-129): reads `user_id`
and `user_name` from the merged request parameters, defaulting to
`"unknown"` / `"Unknown User"` when absent. -/
def getUserFromRequest (params : List (String × String)) : UserInfo :=
  { uid := (lookupParam params "user_id").getD "unknown"
    uname := (lookupParam params "user_name").getD "Unknown User" }

/-- One row of the `conferences` table (database.py `init_db`).
`name`, `ctype`, `ownerId`, `ownerName` are NOT NULL TEXT columns;
`description`, `liveStreamTitle`, `liveStreamDescription`, `status`,
`link` are nullable TEXT; `startDate` (`start_date DATE`), `startTime`
(`start_time TIME`), `createCalendarEvent` and `inviteUsers`
(`BOOLEAN`) have NUMERIC affinity, so they hold the affinity-converted
value (see `storeNumeric`); `cohosts` is a TEXT column storing the
`json.dumps` of the supplied value, read back with `json.loads` (an
identity round trip on the stored value, since `json.dumps` never
yields the empty string and TEXT affinity keeps the dumped string),
so it is kept as the value itself; `createdAt`/`updatedAt` are the
server timestamps. -/
structure Row where
  rid : Nat
  name : String
  ctype : String
  description : SVal
  startDate : SVal
  startTime : SVal
  cohosts : SVal
  createCalendarEvent : SVal
  inviteUsers : SVal
  liveStreamTitle : SVal
  liveStreamDescription : SVal
  ownerId : String
  ownerName : String
  link : SVal
  status : SVal
  createdAt : Nat
  updatedAt : Nat
  deriving Repr, DecidableEq

/-- The conference database: the table rows plus the AUTOINCREMENT
counter (monotone, never reused after deletes). -/
structure DB where
  rows : List Row
  nextId : Nat
  deriving Repr, DecidableEq

/-- The dict shape returned by `get_user_conferences` /
`get_conference_by_id` (database.py): the selected columns, with
`cohosts` parsed back from JSON, the two flags passed through
Python `bool(...)`, and `createdAt` included (`updated_at` is not
selected by these queries). -/
structure ConfView where
  vid : Nat
  name : String
  ctype : String
  description : SVal
  startDate : SVal
  startTime : SVal
  cohosts : SVal
  createCalendarEvent : Bool
  inviteUsers : Bool
  liveStreamTitle : SVal
  liveStreamDescription : SVal
  ownerId : String
  ownerName : String
  link : SVal
  status : SVal
  createdAt : Nat
  deriving Repr, DecidableEq

/-- Row-to-dict conversion shared by the SELECT helpers in database.py:
`json.loads(row[6]) if row[6] else []` recovers the stored cohosts
value (the dumped string is never empty), and the two flags are read
as `bool(row[7])` / `bool(row[8])`. -/
def toView (r : Row) : ConfView :=
  { vid := r.rid
    name := r.name
    ctype := r.ctype
    description := r.description
    startDate := r.startDate
    startTime := r.startTime
    cohosts := r.cohosts
    createCalendarEvent := pyTruthy r.createCalendarEvent
    inviteUsers := pyTruthy r.inviteUsers
    liveStreamTitle := r.liveStreamTitle
    liveStreamDescription := r.liveStreamDescription
    ownerId := r.ownerId
    ownerName := r.ownerName
    link := r.link
    status := r.status
    createdAt := r.createdAt }

/-- Insert a row into a list kept in `created_at`-descending order. -/
def insertDesc (r : Row) : List Row → List Row
  | [] => [r]
  | x :: xs => if r.createdAt ≤ x.createdAt then x :: insertDesc r xs else r :: x :: xs

/-- Sort rows by `created_at` descending (the `ORDER BY created_at DESC`
of the SELECT queries in database.py). -/
def sortDesc (l : List Row) : List Row :=
  l.foldr insertDesc []

/-- `get_user_conferences` (database.py lines 108-150): SELECT the
rows with `owner_id = ?`, ordered by `created_at` DESC, converted to
dicts. -/
def getUserConferences (db : DB) (ownerId : String) : List ConfView :=
  (sortDesc (db.rows.filter (fun r => r.ownerId = ownerId))).map toView

/-- `get_conference_by_id` (database.py lines 195-235): the first row
with the given id, converted to a dict, else `None`. -/
def getById (db : DB) (cid : Nat) : Option ConfView :=
  (db.rows.find? (fun r => r.rid = cid)).map toView

/-- The dict argument of `save_conference` as built by every caller in
app.py: all fourteen inserted keys are present (their values may still
be `None`). -/
structure ConfData where
  name : SVal
  ctype : SVal
  description : SVal
  startDate : SVal
  startTime : SVal
  cohosts : SVal
  createCalendarEvent : SVal
  inviteUsers : SVal
  liveStreamTitle : SVal
  liveStreamDescription : SVal
  ownerId : SVal
  ownerName : SVal
  link : SVal
  status : SVal
  deriving Repr, DecidableEq

/-- `save_conference` (database.py lines 63-106): INSERT the fourteen
bound columns, applying each column's type affinity (TEXT via
`textOf`/`storeText`, NUMERIC for the DATE/TIME/BOOLEAN columns via
`storeNumeric`); the id is assigned by AUTOINCREMENT and
`created_at`/`updated_at` default to CURRENT_TIMESTAMP (`now`).
Returns `none` when the INSERT raises — a NOT NULL violation on
name/type/owner_id/owner_name, the CHECK on type, an unbindable list
value, or a UNIQUE violation on a non-NULL link; otherwise the new
database and the assigned id (`cursor.lastrowid`). -/
def trySave (cd : ConfData) (now : Nat) (db : DB) : Option (DB × Nat) :=
  match textOf cd.name with
  | none => none
  | some nm =>
  match textOf cd.ctype with
  | none => none
  | some ty =>
  match textOf cd.ownerId with
  | none => none
  | some oi =>
  match textOf cd.ownerName with
  | none => none
  | some onm =>
  match storeText cd.description with
  | none => none
  | some ds =>
  match storeNumeric cd.startDate with
  | none => none
  | some sd =>
  match storeNumeric cd.startTime with
  | none => none
  | some st =>
  match storeText cd.liveStreamTitle with
  | none => none
  | some lt =>
  match storeText cd.liveStreamDescription with
  | none => none
  | some ld =>
  match storeText cd.status with
  | none => none
  | some stt =>
  match storeText cd.link with
  | none => none
  | some lk =>
  match storeNumeric cd.createCalendarEvent with
  | none => none
  | some cce =>
  match storeNumeric cd.inviteUsers with
  | none => none
  | some iu =>
  if (ty == "conference" || ty == "broadcast")
      && !(match lk with
            | .vs l => db.rows.any (fun r => r.link = SVal.vs l)
            | _ => false) then
    let row : Row :=
      { rid := db.nextId, name := nm, ctype := ty, description := ds,
        startDate := sd, startTime := st, cohosts := cd.cohosts,
        createCalendarEvent := cce, inviteUsers := iu,
        liveStreamTitle := lt, liveStreamDescription := ld,
        ownerId := oi, ownerName := onm, link := lk, status := stt,
        createdAt := now, updatedAt := now }
    some ({ rows := db.rows ++ [row], nextId := db.nextId + 1 }, db.nextId)
  else
    none

/-- `delete_conference` (database.py lines 285-298): DELETE the rows
with the given id; the boolean is `cursor.rowcount > 0`, i.e. whether
any row was removed. -/
def deleteConferenceDb (db : DB) (cid : Nat) : Bool × DB :=
  let rest := db.rows.filter (fun r => ¬ r.rid = cid)
  (decide (rest.length < db.rows.length), { db with rows := rest })

/-- The `conf_data` dict built in the sync loop of `get_conferences`
(app.py lines 380-397 and, identically, 416-433): every logical field
read off a raw remote record with the exact `.get` chains of the
source, with `ownerId`/`ownerName` stamped from the requesting
caller. -/
structure NormConf where
  nid : SVal
  name : SVal
  ctype : SVal
  description : SVal
  startDate : SVal
  startTime : SVal
  cohosts : SVal
  createCalendarEvent : SVal
  inviteUsers : SVal
  liveStreamTitle : SVal
  liveStreamDescription : SVal
  ownerId : SVal
  ownerName : SVal
  status : SVal
  link : SVal
  createdAt : SVal
  deriving Repr, DecidableEq

/-- Field normalization of one raw remote record (app.py lines
380-397): `conf.get('id', conf.get('ID'))`,
`conf.get('link', conf.get('LINK', ''))`, snake_case-then-camelCase
probes for the date/time/flag/stream fields,
`conf.get('cohosts', conf.get('participants', []))`, and single-spelling
reads for `name`, `type`, `description` and `status`. -/
def normalizeConf (u : UserInfo) (conf : RawConf) : NormConf :=
  { nid := rawGetD conf "id" (rawGetV conf "ID")
    name := rawGetV conf "name"
    ctype := rawGetD conf "type" (.vs "conference")
    description := rawGetD conf "description" (.vs "")
    startDate := rawGetD conf "start_date" (rawGetD conf "startDate" (.vs ""))
    startTime := rawGetD conf "start_time" (rawGetD conf "startTime" (.vs ""))
    cohosts := rawGetD conf "cohosts" (rawGetD conf "participants" (.varr []))
    createCalendarEvent := rawGetD conf "create_calendar_event" (rawGetD conf "createCalendarEvent" (.vb false))
    inviteUsers := rawGetD conf "invite_users" (rawGetD conf "inviteUsers" (.vb false))
    liveStreamTitle := rawGetD conf "live_stream_title" (rawGetD conf "liveStreamTitle" (.vs ""))
    liveStreamDescription := rawGetD conf "live_stream_description" (rawGetD conf "liveStreamDescription" (.vs ""))
    ownerId := .vs u.uid
    ownerName := .vs u.uname
    status := rawGetD conf "status" (.vs "scheduled")
    link := rawGetD conf "link" (rawGetD conf "LINK" (.vs ""))
    createdAt := rawGetD conf "created_at" (rawGetV conf "createdAt") }

/-- Projection of a normalized record onto the fourteen keys that
`save_conference` reads from its dict argument — the INSERT statement
does not bind the `id` or `createdAt` entries of `conf_data`. -/
def toConfData (nc : NormConf) : ConfData :=
  { name := nc.name, ctype := nc.ctype, description := nc.description,
    startDate := nc.startDate, startTime := nc.startTime,
    cohosts := nc.cohosts, createCalendarEvent := nc.createCalendarEvent,
    inviteUsers := nc.inviteUsers, liveStreamTitle := nc.liveStreamTitle,
    liveStreamDescription := nc.liveStreamDescription,
    ownerId := nc.ownerId, ownerName := nc.ownerName,
    link := nc.link, status := nc.status }

/-- Outcome of `telemost_api.get_conferences(yandex_token)` as observed
by the list route's branching: `rerr` when the membership test
`'error' not in yandex_conferences` fails (the error dict, or a list
containing the literal string), `ritems` for a plain list, `rwrapped`
for a dict whose `result` key holds a list, `rother` for any other
dict shape, and `rexc` when the call raises (caught by the route's
outer `except`). -/
inductive RemoteListResult where
  | rerr
  | ritems (rs : List RawConf)
  | rwrapped (rs : List RawConf)
  | rother
  | rexc
  deriving Repr, DecidableEq

/-- Response of the GET `/api/conferences` route: every return
statement in the handler is `jsonify(<list>)`; the `errorResp`
constructor exists only to express that no branch produces it. -/
inductive ListResponse where
  | okList (cs : List ConfView)
  | errorResp (msg : String) (code : Nat)
  deriving Repr, DecidableEq

/-- The sync loop of `get_conferences`: each raw record is normalized,
stamped with the caller, and saved; an individual `save_conference`
failure is swallowed by `try/except: pass` and the loop continues. -/
def syncAll (u : UserInfo) (now : Nat) (db : DB) (rs : List RawConf) : DB :=
  rs.foldl (fun d r =>
    match trySave (toConfData (normalizeConf u r)) now d with
    | some (dnew, _) => dnew
    | none => d) db

/-- `get_conferences` (app.py lines 359-458): with no token, answer
from the local repository; with a token, sync the remote list (plain
or `result`-wrapped) into the repository and answer from the
repository; on a remote error value, a non-list non-`result` shape,
or an exception, fall back to the repository. Every branch responds
with `get_user_conferences(user_id)`. -/
def getConferencesRoute (u : UserInfo) (hasToken : Bool)
    (remote : RemoteListResult) (now : Nat) (db : DB) : ListResponse × DB :=
  if hasToken then
    match remote with
    | .rerr => (.okList (getUserConferences db u.uid), db)
    | .ritems rs =>
        let dbNew := syncAll u now db rs
        (.okList (getUserConferences dbNew u.uid), dbNew)
    | .rwrapped rs =>
        let dbNew := syncAll u now db rs
        (.okList (getUserConferences dbNew u.uid), dbNew)
    | .rother => (.okList (getUserConferences db u.uid), db)
    | .rexc => (.okList (getUserConferences db u.uid), db)
  else
    (.okList (getUserConferences db u.uid), db)

/-- Response of the POST `/api/conferences` route in the no-token
branch: `jsonify(conference_data)` carrying the assigned id, or a
500 error when `save_conference` raises. -/
inductive CreateResult where
  | ok (cid : Nat) (cd : ConfData)
  | err (code : Nat)
  deriving Repr, DecidableEq

/-- The `conference_data` dict built by the no-token branch of
`create_conference` (app.py lines 526-541): name/type/cohosts from the
request payload, empty defaults for the other text fields, owner from
the caller, and the fallback link
`"https://telemost.yandex.ru/j/" + str(len(get_user_conferences(user_id)) + 1)`. -/
def createPayloadData (u : UserInfo) (data : RawConf) (db : DB) : ConfData :=
  { name := rawGetV data "name"
    ctype := rawGetD data "type" (.vs "conference")
    description := .vs ""
    startDate := .vs ""
    startTime := .vs ""
    cohosts := rawGetD data "cohosts" (.varr [])
    createCalendarEvent := .vb false
    inviteUsers := .vb false
    liveStreamTitle := .vs ""
    liveStreamDescription := .vs ""
    ownerId := .vs u.uid
    ownerName := .vs u.uname
    status := .vs "scheduled"
    link := .vs ("https://telemost.yandex.ru/j/" ++ toString ((getUserConferences db u.uid).length + 1)) }

/-- `create_conference`, no-token branch (app.py lines 524-549):
build `conference_data` (see `createPayloadData`), save it, then set
`conference_data['id'] = int(conference_id)` (`conference_id`, the
stringified `lastrowid`, is always truthy) and respond with the dict;
a save exception yields a 500 error response. -/
def createConferenceNoToken (u : UserInfo) (data : RawConf) (now : Nat)
    (db : DB) : CreateResult × DB :=
  match trySave (createPayloadData u data db) now db with
  | some (dbNew, cid) => (.ok cid (createPayloadData u data db), dbNew)
  | none => (.err 500, db)

/-- Outcome of a Python call: a returned value or a raised exception. -/
inductive PyCallOutcome (α : Type) where
  | ok (a : α)
  | raises (msg : String)
  deriving Repr, DecidableEq

/-- Response of the PUT `/api/conferences/<id>` route. -/
inductive UpdateResult where
  | okConf (v : ConfView)
  | okNull
  | notFound
  | err (code : Nat)
  deriving Repr, DecidableEq

/-- The inner call `update_conference(conf_id, data)` at app.py line
591. Both route handlers and the database helpers share names, and the
route functions are defined inside `create_app`, so inside the route
body the free name `update_conference` is resolved by Python's lexical
scoping to the enclosing function scope of `create_app` — i.e. to the
route function itself — not to the module-level import from
`database`. The route function's signature is
`def update_conference(conf_id):` (one parameter), so calling it with
two arguments raises `TypeError` at the call site, before any body
runs. -/
def updateRouteInnerCall (cid : Nat) (data : RawConf) : PyCallOutcome Bool :=
  .raises "TypeError: update_conference() takes 1 positional argument but 2 were given"

/-- `update_conference` route (app.py lines 564-598): the optional
best-effort remote `api_call` (token branch) has its result discarded
and touches no local state; then the guarded block
`success = update_conference(conf_id, data)` raises `TypeError` (see
`updateRouteInnerCall`), which the `except Exception` handler turns
into a 500 response. The `if success` continuation is kept for
fidelity but is unreachable. -/
def updateConferenceRoute (hasToken : Bool) (cid : Nat) (data : RawConf)
    (db : DB) : UpdateResult × DB :=
  match updateRouteInnerCall cid data with
  | .raises _ => (.err 500, db)
  | .ok success =>
      if success then
        match getById db cid with
        | some v => (.okConf v, db)
        | none => (.okNull, db)
      else (.notFound, db)

/-- Response of the DELETE `/api/conferences/<id>` route. -/
inductive DeleteResp where
  | success200
  | notFound404
  | serverError500
  deriving Repr, DecidableEq

/-- Truthiness of the value bound to `success` in the delete route:
the recursive call returns either a Flask `Response` (the success
branch) or a `(Response, 500)` tuple (the error branch), and both are
truthy Python objects. -/
def deleteRespTruthy : DeleteResp → Bool := fun _ => true

/-- `delete_conference` route (app.py lines 551-562), with explicit
recursion fuel. As with the update route, the inner call
`delete_conference(conf_id)` (whose own comment says "Using function
from database module") is resolved by lexical scoping to the route
function itself, so the handler recurses on itself with an unchanged
argument and never reaches `database.delete_conference`. At recursion
exhaustion (fuel 0) the `RecursionError` is caught by `except
Exception` and answered with a 500 response; in every enclosing frame
the inner call's return value — a response object, always truthy — is
bound to `success`, so the frame answers
`{'success': True, 'message': ...}` regardless of the database. -/
def deleteRouteFuel : Nat → DB → Nat → DeleteResp × DB
  | 0, db, _ => (.serverError500, db)
  | n + 1, db, cid =>
      let inner := deleteRouteFuel n db cid
      if deleteRespTruthy inner.1 then (.success200, db) else (.notFound404, db)

/-- JSON value returned by the remote Yandex API. -/
inductive JVal where
  | js (s : String)
  | jn (n : Int)
  | jb (b : Bool)
  | jnull
  | jarr (xs : List JVal)
  | jobj (fields : List (String × JVal))

/-- Embedding of the app's `SVal` values into JSON values (used where
`api_call` mixes request-payload values into its response dict). -/
def toJ : SVal → JVal
  | .vs s => .js s
  | .vn n => .jn n
  | .vb b => .jb b
  | .varr xs => .jarr (xs.map JVal.js)
  | .vnull => .jnull

/-- `d.get(k)` on a JSON object field list. -/
def jGet (fields : List (String × JVal)) (k : String) : Option JVal :=
  (fields.find? (fun p => p.1 = k)).map (fun p => p.2)

/-- `d.get(k, default)` on a JSON object field list. -/
def jGetD (fields : List (String × JVal)) (k : String) (d : JVal) : JVal :=
  (jGet fields k).getD d

/-- Python `str(...)` of a JSON value as interpolated into the
fallback-link f-string of `api_call` (approximate for nested
arrays/objects, which no theorem relies on). -/
def jStr : JVal → String
  | .js s => s
  | .jn n => toString n
  | .jb true => "True"
  | .jb false => "False"
  | .jnull => "None"
  | .jarr _ => "[...]"
  | .jobj _ => "\x7b...\x7d"

/-- Python `str.upper()`, character-wise. -/
def pyUpper (s : String) : String := ⟨s.data.map Char.toUpper⟩

/-- Python `str.lower()`, character-wise. -/
def pyLower (s : String) : String := ⟨s.data.map Char.toLower⟩

/-- Whether the first character list is an initial segment of the
second. -/
def startsWithChars : List Char → List Char → Bool
  | [], _ => true
  | _ :: _, [] => false
  | p :: ps, c :: cs => p == c && startsWithChars ps cs

/-- Whether the pattern occurs as a contiguous run of the character
list. -/
def containsChars (pat : List Char) : List Char → Bool
  | [] => pat.isEmpty
  | c :: cs => startsWithChars pat (c :: cs) || containsChars pat cs

/-- Python `pat in s` substring containment. -/
def containsSub (s pat : String) : Bool := containsChars pat.data s.data

/-- Default `YANDEX_API_BASE` (telemost.py `_load_config`). -/
def telemostApiBase : String := "https://telemost.yandex.ru/api/v1"

/-- The fixed conferences endpoint of telemost.py lines 108-112. -/
def cloudApiUrl : String := "https://cloud-api.yandex.net/v1/telemost-api/conferences"

/-- URL selection of `api_call` (telemost.py lines 106-112): the fixed
cloud endpoint when `'conferences' in endpoint.lower()`, else
`api_base/endpoint`. -/
def mkUrl (endpoint : String) : String :=
  if containsSub (pyLower endpoint) "conferences" then cloudApiUrl
  else telemostApiBase ++ "/" ++ endpoint

/-- Body of an HTTP response as `api_call` observes it: empty content,
JSON-parsable content, or non-empty non-JSON text. -/
inductive HttpBody where
  | empty
  | jsonBody (v : JVal)
  | rawText (t : String)

/-- Outcome of the single outbound `requests` call: a raised
`RequestException` with its message, or a response with a status code
and a body. -/
inductive HttpWorld where
  | netFail (msg : String)
  | resp (status : Nat) (body : HttpBody)

/-- The `conf_data` dict built by `api_call` for a successful POST to
a conferences URL (telemost.py lines 168-183). -/
structure CreatedConf where
  cid : JVal
  name : JVal
  ctype : JVal
  description : JVal
  startDate : JVal
  startTime : JVal
  cohosts : JVal
  createCalendarEvent : JVal
  inviteUsers : JVal
  liveStreamTitle : JVal
  liveStreamDescription : JVal
  status : JVal
  link : JVal
  createdAt : JVal

/-- The fields of `CreatedConf` that are read from the remote response
object `y` alone (telemost.py lines 169, 180-182): used when `data` is
falsy (None or an empty dict). -/
def transformFromY (y : List (String × JVal)) (nowIso : String) : CreatedConf :=
  { cid := jGetD y "id" (jGetD y "ID" .jnull)
    name := jGetD y "name" (.js "")
    ctype := jGetD y "type" (.js "conference")
    description := jGetD y "description" (.js "")
    startDate := jGetD y "start_date" (.js "")
    startTime := jGetD y "start_time" (.js "")
    cohosts := jGetD y "cohosts" (.jarr [])
    createCalendarEvent := jGetD y "create_calendar_event" (.jb false)
    inviteUsers := jGetD y "invite_users" (.jb false)
    liveStreamTitle := jGetD y "live_stream_title" (.js "")
    liveStreamDescription := jGetD y "live_stream_description" (.js "")
    status := .js "scheduled"
    link := jGetD y "link" (jGetD y "JOIN_URL" (jGetD y "join_url"
      (.js ("https://telemost.yandex.ru/j/" ++ jStr (jGetD y "id" (jGetD y "ID" (.js "new")))))))
    createdAt := .js nowIso }

/-- The response transform of `api_call` for POST to a conferences URL
(telemost.py lines 168-183): each `<field> if data else <remote>`
conditional uses the truthiness of `data`, so a present non-empty
payload dict supplies the public-facing fields while `id`, `link`,
`status` and `createdAt` always come from the remote object / server
clock. -/
def transformCreated (data : Option RawConf) (y : List (String × JVal))
    (nowIso : String) : CreatedConf :=
  match data with
  | none => transformFromY y nowIso
  | some dd =>
    if dd.isEmpty then transformFromY y nowIso
    else
      { cid := jGetD y "id" (jGetD y "ID" .jnull)
        name := toJ (rawGetV dd "name")
        ctype := toJ (rawGetD dd "type" (.vs "conference"))
        description := toJ (rawGetD dd "description" (.vs ""))
        startDate := toJ (rawGetD dd "startDate" (.vs ""))
        startTime := toJ (rawGetD dd "startTime" (.vs ""))
        cohosts := toJ (rawGetD dd "cohosts" (.varr []))
        createCalendarEvent := toJ (rawGetD dd "createCalendarEvent" (.vb false))
        inviteUsers := toJ (rawGetD dd "inviteUsers" (.vb false))
        liveStreamTitle := toJ (rawGetD dd "liveStreamTitle" (.vs ""))
        liveStreamDescription := toJ (rawGetD dd "liveStreamDescription" (.vs ""))
        status := .js "scheduled"
        link := jGetD y "link" (jGetD y "JOIN_URL" (jGetD y "join_url"
          (.js ("https://telemost.yandex.ru/j/" ++ jStr (jGetD y "id" (jGetD y "ID" (.js "new")))))))
        createdAt := .js nowIso }

/-- Detail carried by the error value `api_call` builds for a non-2xx
response: the parsed JSON body, or the "Response was not JSON" dict. -/
inductive ErrBody where
  | json (v : JVal)
  | notJson

/-- Return shapes of `api_call`, one constructor per return statement
of the source, plus the two ways an exception can escape the function
(an `AttributeError` from an attribute access on `None` or on a
non-dict JSON value, and a `TypeError` from iterating a non-iterable
cohosts value — neither is a `requests.exceptions.RequestException`
nor a `json.JSONDecodeError`, so neither is caught). -/
inductive ApiResult where
  | raisesAttrError
  | raisesTypeError
  | errNoToken
  | errUnsupportedMethod (m : String)
  | errHttp (body : ErrBody) (status : Nat)
  | errNetwork (msg : String)
  | transformedConf (c : CreatedConf)
  | rawResult (v : JVal)
  | resultText (t : String)
  | successEmpty (status : Nat)

/-- Whether an `ApiResult` is an exception escaping `api_call`'s
public boundary. -/
def isRaise : ApiResult → Bool
  | .raisesAttrError => true
  | .raisesTypeError => true
  | _ => false

/-- The part of `api_call` from the outbound request onward
(telemost.py lines 114-195): a `RequestException` becomes the
"Request failed" error dict (its `status_code` is
`getattr(e.response, 'status_code', None)`); a non-2xx status yields
the error dict with the parsed body or the "Response was not JSON"
marker; a 2xx response yields the success-empty dict for empty
content, the raw-text wrap for non-JSON content, and for JSON content
either the POST-conferences transform (which raises `AttributeError`
when the parsed body is not a dict) or the parsed value itself. -/
def afterRequest (m url : String) (data : Option RawConf) (world : HttpWorld)
    (nowIso : String) : ApiResult :=
  match world with
  | .netFail msg => .errNetwork msg
  | .resp status body =>
    if status == 200 || status == 201 then
      match body with
      | .empty => .successEmpty status
      | .rawText t => .resultText t
      | .jsonBody v =>
        if m == "POST" && containsSub url "conferences" then
          match v with
          | .jobj fs => .transformedConf (transformCreated data fs nowIso)
          | _ => .raisesAttrError
        else .rawResult v
    else
      match body with
      | .jsonBody v => .errHttp (.json v) status
      | .rawText _ => .errHttp .notJson status
      | .empty => .errHttp .notJson status

/-- The Yandex-format payload preparation of `api_call`'s
POST-conferences branch (telemost.py lines 119-137), restricted to its
observable control effects: given the payload dict `dd`, the line
`cohosts_data = data.get('cohosts', data.get('cohosts', []))` reads
the cohosts value; when it is truthy, the comprehension
`[{'email': email} for email in cohosts_data if '@' in email]`
iterates it — a list or a string iterates fine, any other truthy value
raises `TypeError`; otherwise the prepared request proceeds (`k`). -/
def postConfGuard (k : ApiResult) (dd : RawConf) : ApiResult :=
  if pyTruthy (rawGetD dd "cohosts" (rawGetD dd "cohosts" (.varr []))) then
    match rawGetD dd "cohosts" (rawGetD dd "cohosts" (.varr [])) with
    | .varr _ => k
    | .vs _ => k
    | _ => .raisesTypeError
  else k

/-- `TelemostAPI.api_call` (telemost.py lines 87-195). The effective
token is the explicit argument, else the session token, else the
configured permanent token; with none of them the "No access token
available" error dict is returned. Methods other than
GET/POST/PUT/DELETE yield the "Unsupported HTTP method" error dict.
On POST to a conferences endpoint the Yandex-format payload is built
first (see `postConfGuard`): `data.get('cohosts', ...)` raises
`AttributeError` when `data` is None (the unguarded access at line
133), and iterating a truthy non-iterable cohosts value raises
`TypeError`; both escape the function, whose `except` clause catches
only `requests.exceptions.RequestException`. -/
def apiCall (method endpoint : String)
    (accessToken sessionToken configToken : Option String)
    (data : Option RawConf) (world : HttpWorld) (nowIso : String) : ApiResult :=
  match (accessToken.orElse (fun _ => sessionToken)).orElse (fun _ => configToken) with
  | none => .errNoToken
  | some _ =>
    if pyUpper method == "GET" then
      afterRequest (pyUpper method) (mkUrl endpoint) data world nowIso
    else if pyUpper method == "POST" then
      if containsSub (pyLower endpoint) "conferences" then
        data.elim ApiResult.raisesAttrError
          (postConfGuard (afterRequest (pyUpper method) (mkUrl endpoint) data world nowIso))
      else afterRequest (pyUpper method) (mkUrl endpoint) data world nowIso
    else if pyUpper method == "PUT" then
      afterRequest (pyUpper method) (mkUrl endpoint) data world nowIso
    else if pyUpper method == "DELETE" then
      afterRequest (pyUpper method) (mkUrl endpoint) data world nowIso
    else .errUnsupportedMethod method

/-- The four HTTP methods `api_call` dispatches; anything else yields
the "Unsupported HTTP method" error dict. -/
def methodSupported (method : String) : Bool :=
  pyUpper method == "GET" || pyUpper method == "POST"
    || pyUpper method == "PUT" || pyUpper method == "DELETE"

/-- Whether a payload dict's truthy cohosts value is iterable (a list
or a string), so that `postConfGuard` does not raise. -/
def cohostsIterOk (dd : RawConf) : Bool :=
  !(pyTruthy (rawGetD dd "cohosts" (rawGetD dd "cohosts" (.varr []))))
    || (match rawGetD dd "cohosts" (rawGetD dd "cohosts" (.varr [])) with
        | .varr _ => true | .vs _ => true | _ => false)

/-- First safety condition on an `api_call` invocation: on the
POST-conferences path the payload must be an actual dict whose truthy
cohosts value is iterable. -/
def postConfSafe (method endpoint : String) (data : Option RawConf) : Bool :=
  if pyUpper method == "POST" && containsSub (pyLower endpoint) "conferences" then
    data.elim false cohostsIterOk
  else true

/-- Second safety condition: a 2xx JSON body on the POST-conferences
transform path must parse to a dict. -/
def bodySafe (m url : String) : HttpWorld → Bool
  | .resp s (.jsonBody v) =>
      if m == "POST" && containsSub url "conferences" then
        if s == 200 || s == 201 then
          match v with | .jobj _ => true | _ => false
        else true
      else true
  | _ => true

/-- Arguments under which `api_call` avoids its three raise sites; all
non-POST-conferences calls are unconditionally safe. -/
def safeArgs (method endpoint : String) (data : Option RawConf)
    (world : HttpWorld) : Bool :=
  postConfSafe method endpoint data
    && bodySafe (pyUpper method) (mkUrl endpoint) world

/-- Return shapes of `TelemostAPI.get_conferences`. -/
inductive GetConfsResult where
  | gerr (msg : String)
  | gempty
  | gval (v : JVal)

/-- `TelemostAPI.get_conferences` (telemost.py lines 225-245):
`raise_for_status` turns any 4xx/5xx status into an `HTTPError` and a
non-JSON body makes `response.json()` raise
`requests.exceptions.JSONDecodeError`; both are subclasses of
`RequestException` and are caught by the handler, which returns the
"Request failed" error dict. Empty content yields `[]`, JSON content
the parsed value. No exception escapes. -/
def getConferencesClient (tok : String) (world : HttpWorld) : GetConfsResult :=
  match world with
  | .netFail msg => .gerr msg
  | .resp status body =>
    if decide (400 ≤ status) then .gerr "Request failed"
    else
      match body with
      | .empty => .gempty
      | .jsonBody v => .gval v
      | .rawText _ => .gerr "Request failed"

/-! ## Helper lemmas -/

lemma mem_insertDesc {x r : Row} {l : List Row} (h : x ∈ insertDesc r l) :
    x = r ∨ x ∈ l := by
  induction l with
  | nil =>
      simp only [insertDesc, List.mem_singleton] at h
      exact Or.inl h
  | cons a t ih =>
      simp only [insertDesc] at h
      split at h
      · rcases List.mem_cons.mp h with h1 | h1
        · exact Or.inr (List.mem_cons.mpr (Or.inl h1))
        · rcases ih h1 with h2 | h2
          · exact Or.inl h2
          · exact Or.inr (List.mem_cons.mpr (Or.inr h2))
      · rcases List.mem_cons.mp h with h1 | h1
        · exact Or.inl h1
        · exact Or.inr h1

lemma mem_sortDesc {x : Row} {l : List Row} (h : x ∈ sortDesc l) : x ∈ l := by
  induction l with
  | nil => simpa [sortDesc] using h
  | cons a t ih =>
      simp only [sortDesc, List.foldr_cons] at h
      rcases mem_insertDesc h with h1 | h1
      · exact h1 ▸ List.mem_cons_self a t
      · exact List.mem_cons.mpr (Or.inr (ih h1))

/-- Every dict returned by `get_user_conferences(U)` has `ownerId = U`:
the SELECT filters on `owner_id = ?`. -/
lemma owner_of_mem_getUserConferences {db : DB} {U : String} {v : ConfView}
    (h : v ∈ getUserConferences db U) : v.ownerId = U := by
  unfold getUserConferences at h
  obtain ⟨r, hr, rfl⟩ := List.mem_map.mp h
  have hmem := List.mem_filter.mp (mem_sortDesc hr)
  have : r.ownerId = U := by simpa using hmem.2
  simpa [toView] using this

/-- Inversion of a successful `save_conference`: exactly one row is
appended, its id is the AUTOINCREMENT value (also returned), its owner
columns are the bound dict values and both timestamps are the server
clock. -/
lemma trySave_inv {cd : ConfData} {now : Nat} {db db2 : DB} {i : Nat}
    (h : trySave cd now db = some (db2, i)) :
    ∃ ro : Row, db2.rows = db.rows ++ [ro]
      ∧ textOf cd.ownerId = some ro.ownerId
      ∧ ro.rid = db.nextId ∧ i = db.nextId
      ∧ ro.createdAt = now ∧ ro.updatedAt = now := by
  unfold trySave at h
  iterate 13 (split at h <;> try exact Option.noConfusion h)
  split at h <;> try exact Option.noConfusion h
  rw [Option.some_inj, Prod.mk.injEq] at h
  obtain ⟨hA, hB⟩ := h
  refine ⟨_, by rw [← hA], ?_, rfl, hB.symm, rfl, rfl⟩
  show textOf cd.ownerId = some _
  assumption

/-! ## Claims -/

/-- C1. Owner isolation: for owners `U1 ≠ U2`, `get_user_conferences(U1)`
never returns a record with `ownerId = U2`; and the GET
`/api/conferences` route, in every branch (no token, remote error
value, remote exception, non-list remote shape, plain-list sync,
`result`-wrapped sync), responds with `get_user_conferences(user_id)`
computed on the final repository state, all of whose records carry the
caller's `ownerId`. -/
theorem conferences_owner_isolation (U1 U2 : String) (db0 : DB)
    (u : UserInfo) (hasToken : Bool) (remote : RemoteListResult)
    (now : Nat) (db : DB) (h : U1 ≠ U2) :
    (∀ v ∈ getUserConferences db0 U1, v.ownerId = U1 ∧ v.ownerId ≠ U2)
    ∧ ∃ dbFin, getConferencesRoute u hasToken remote now db
        = (ListResponse.okList (getUserConferences dbFin u.uid), dbFin)
      ∧ ∀ v ∈ getUserConferences dbFin u.uid, v.ownerId = u.uid := by
  constructor
  · intro v hv
    have hown := owner_of_mem_getUserConferences hv
    exact ⟨hown, by rw [hown]; exact h⟩
  · cases hasToken with
    | false =>
        exact ⟨db, rfl, fun v hv => owner_of_mem_getUserConferences hv⟩
    | true =>
        cases remote with
        | rerr => exact ⟨db, rfl, fun v hv => owner_of_mem_getUserConferences hv⟩
        | ritems rs =>
            exact ⟨syncAll u now db rs, rfl,
              fun v hv => owner_of_mem_getUserConferences hv⟩
        | rwrapped rs =>
            exact ⟨syncAll u now db rs, rfl,
              fun v hv => owner_of_mem_getUserConferences hv⟩
        | rother => exact ⟨db, rfl, fun v hv => owner_of_mem_getUserConferences hv⟩
        | rexc => exact ⟨db, rfl, fun v hv => owner_of_mem_getUserConferences hv⟩

/-- Witness for C1 at concrete inputs. -/
theorem conferences_owner_isolation_witness :
    ("alice" : String) ≠ "bob"
    ∧ ((∀ v ∈ getUserConferences ⟨[], 1⟩ "alice", v.ownerId = "alice" ∧ v.ownerId ≠ "bob")
       ∧ ∃ dbFin, getConferencesRoute ⟨"alice", "Alice"⟩ false RemoteListResult.rerr 0 ⟨[], 1⟩
           = (ListResponse.okList (getUserConferences dbFin "alice"), dbFin)
         ∧ ∀ v ∈ getUserConferences dbFin "alice", v.ownerId = "alice") :=
  ⟨by decide,
   conferences_owner_isolation "alice" "bob" ⟨[], 1⟩ ⟨"alice", "Alice"⟩
     false RemoteListResult.rerr 0 ⟨[], 1⟩ (by decide)⟩

/-- C2. List-operation fallback: when the external client returns an
error value (and likewise when it raises), the route responds with
exactly `get_user_conferences(user_id)` on the unchanged repository —
no remote data merged, no error response produced. -/
theorem list_fallback_on_remote_error (u : UserInfo) (now : Nat) (db : DB) :
    getConferencesRoute u true RemoteListResult.rerr now db
      = (ListResponse.okList (getUserConferences db u.uid), db)
    ∧ getConferencesRoute u true RemoteListResult.rexc now db
      = (ListResponse.okList (getUserConferences db u.uid), db) :=
  ⟨rfl, rfl⟩

/-- The repository state used by the C3 failing input: one existing
conference owned by `bob` with id 1 (its link came from the remote
provider, so it does not collide), AUTOINCREMENT counter at 2. -/
def bobRow : Row :=
  { rid := 1, name := "Standup", ctype := "conference", description := .vs "",
    startDate := .vs "", startTime := .vs "", cohosts := .varr [],
    createCalendarEvent := .vn 0, inviteUsers := .vn 0,
    liveStreamTitle := .vs "", liveStreamDescription := .vs "",
    ownerId := "bob", ownerName := "Bob",
    link := .vs "https://telemost.yandex.ru/j/9", status := .vs "scheduled",
    createdAt := 0, updatedAt := 0 }

/-- The `conference_data` dict the C3 create builds and returns. -/
def cdDemo : ConfData :=
  { name := .vs "Demo", ctype := .vs "conference", description := .vs "",
    startDate := .vs "", startTime := .vs "", cohosts := .varr [],
    createCalendarEvent := .vb false, inviteUsers := .vb false,
    liveStreamTitle := .vs "", liveStreamDescription := .vs "",
    ownerId := .vs "alice", ownerName := .vs "Alice",
    status := .vs "scheduled",
    link := .vs "https://telemost.yandex.ru/j/1" }

/-- C3 (evaluation at the failing input). Caller `alice` creates with
no token against a repository holding one conference owned by `bob`:
the repository assigns id 2, and the returned record has
`status == "scheduled"` and `ownerId == "alice"` as claimed, but its
link is `https://telemost.yandex.ru/j/1` — built from
`len(get_user_conferences('alice')) + 1 = 1`, not from the assigned
id 2 — so the claimed link form `<provider-base>/j/<assigned-id>`
does not hold. -/
theorem create_no_token_link_mismatch :
    (createConferenceNoToken ⟨"alice", "Alice"⟩ [("name", SVal.vs "Demo")] 5 ⟨[bobRow], 2⟩).1
      = CreateResult.ok 2 cdDemo
    ∧ cdDemo.status = SVal.vs "scheduled"
    ∧ cdDemo.ownerId = SVal.vs "alice"
    ∧ cdDemo.link = SVal.vs "https://telemost.yandex.ru/j/1"
    ∧ ("https://telemost.yandex.ru/j/1" : String) ≠ "https://telemost.yandex.ru/j/2" := by
  refine ⟨by decide, rfl, rfl, rfl, by decide⟩

/-- The `conference_data` dict stored by the first C4 create. -/
def cdAlice : ConfData :=
  { name := .vs "A", ctype := .vs "conference", description := .vs "",
    startDate := .vs "", startTime := .vs "", cohosts := .varr [],
    createCalendarEvent := .vb false, inviteUsers := .vb false,
    liveStreamTitle := .vs "", liveStreamDescription := .vs "",
    ownerId := .vs "alice", ownerName := .vs "Alice",
    status := .vs "scheduled",
    link := .vs "https://telemost.yandex.ru/j/1" }

/-- C4 (evaluation at the failing input). On an empty repository,
`alice` creates with no token and succeeds (id 1, link `.../j/1`);
`bob` then creates with no token: his link is again computed as
`.../j/<len(get_user_conferences('bob')) + 1>` = `.../j/1`, the INSERT
violates the UNIQUE constraint on `link`, and the route answers a 500
error — the second create does not succeed, contradicting the claim
that creates by two distinct callers never collide on link. -/
theorem create_no_token_collision :
    (createConferenceNoToken ⟨"alice", "Alice"⟩ [("name", SVal.vs "A")] 0 ⟨[], 1⟩).1
      = CreateResult.ok 1 cdAlice
    ∧ (createConferenceNoToken ⟨"bob", "Bob"⟩ [("name", SVal.vs "B")] 1
        (createConferenceNoToken ⟨"alice", "Alice"⟩ [("name", SVal.vs "A")] 0 ⟨[], 1⟩).2).1
      = CreateResult.err 500 := by
  refine ⟨by decide, by decide⟩

/-- C5 (evaluation of the code). Because the inner name
`update_conference` resolves to the route function itself (see
`updateRouteInnerCall`), every PUT `/api/conferences/<id>` request —
with or without a token, for any id and payload — raises `TypeError`,
is caught, and answers a 500 error with the repository untouched:
`database.update_conference` is never called and the claimed
not-found / `get_conference_by_id` responses are unreachable. -/
theorem update_route_shadowed (hasToken : Bool) (cid : Nat)
    (data : RawConf) (db : DB) :
    updateConferenceRoute hasToken cid data db = (UpdateResult.err 500, db) :=
  rfl

/-- C6 (evaluation of the code). The DELETE route's inner call
resolves to the route itself (see `deleteRouteFuel`): with any
remaining recursion budget the handler answers success without
touching the repository — for nonexistent ids as well — so
`database.delete_conference` is never called. The repository-level
halves of the claim do hold of `database.delete_conference` itself:
after a delete, `get_conference_by_id` returns none, and a second
delete returns false rather than raising. -/
theorem delete_route_shadowed :
    (∀ (fuel : Nat) (db : DB) (cid : Nat),
        deleteRouteFuel (fuel + 1) db cid = (DeleteResp.success200, db))
    ∧ (∀ (db : DB) (cid : Nat), getById (deleteConferenceDb db cid).2 cid = none)
    ∧ (∀ (db : DB) (cid : Nat),
        (deleteConferenceDb (deleteConferenceDb db cid).2 cid).1 = false) := by
  refine ⟨fun fuel db cid => rfl, ?_, ?_⟩
  · intro db cid
    have hnone : (db.rows.filter (fun r => decide (¬ r.rid = cid))).find?
        (fun r => decide (r.rid = cid)) = none := by
      rw [List.find?_eq_none]
      intro r hr
      have := (List.mem_filter.mp hr).2
      simpa using this
    simp [getById, deleteConferenceDb, hnone]
  · intro db cid
    simp only [deleteConferenceDb, List.filter_filter]
    have hsame : (db.rows.filter fun r => decide ¬r.rid = cid)
        = db.rows.filter fun r => (decide ¬r.rid = cid && decide ¬r.rid = cid) := by
      congr 1
      funext r
      exact (Bool.and_self _).symm
    rw [← hsame]
    simp

/-- C8 counterexample. The claim that every logical field is probed
under both its snake_case and its legacy upper-case spelling fails for
the `name` field: a raw record carrying only the upper-case key `NAME`
normalizes with `name = None`, while the same record under the
lower-case key `name` keeps its value, so the two do not normalize to
the identical shape. -/
theorem normalize_uppercase_name_not_probed :
    normalizeConf ⟨"u", "U"⟩ [("NAME", SVal.vs "x")]
      ≠ normalizeConf ⟨"u", "U"⟩ [("name", SVal.vs "x")] := by
  decide

/-- C8 amended. The client probes alternative spellings only for
selected fields — `id`/`ID`, `link`/`LINK`, snake_case/camelCase for
the date, time, flag and live-stream fields, and
`cohosts`/`participants` — preferring the first spelling present;
`name`, `type`, `description` and `status` are read under a single
spelling. In particular the two records of the spec's example,
`(ID: 5, LINK: "x")` and `(id: 5, link: "x")`, do normalize to the
identical Conference shape. -/
theorem normalize_alias_table (u : UserInfo) (conf : RawConf) :
    normalizeConf u [("ID", SVal.vn 5), ("LINK", SVal.vs "x")]
      = normalizeConf u [("id", SVal.vn 5), ("link", SVal.vs "x")]
    ∧ (normalizeConf u conf).nid = rawGetD conf "id" (rawGetV conf "ID")
    ∧ (normalizeConf u conf).link
        = rawGetD conf "link" (rawGetD conf "LINK" (SVal.vs ""))
    ∧ (normalizeConf u conf).name = rawGetV conf "name"
    ∧ (normalizeConf u conf).ctype = rawGetD conf "type" (SVal.vs "conference")
    ∧ (normalizeConf u conf).description
        = rawGetD conf "description" (SVal.vs "")
    ∧ (normalizeConf u conf).status = rawGetD conf "status" (SVal.vs "scheduled")
    ∧ (normalizeConf u conf).startDate
        = rawGetD conf "start_date" (rawGetD conf "startDate" (SVal.vs ""))
    ∧ (normalizeConf u conf).startTime
        = rawGetD conf "start_time" (rawGetD conf "startTime" (SVal.vs ""))
    ∧ (normalizeConf u conf).cohosts
        = rawGetD conf "cohosts" (rawGetD conf "participants" (SVal.varr []))
    ∧ (normalizeConf u conf).createdAt
        = rawGetD conf "created_at" (rawGetV conf "createdAt")
    ∧ (normalizeConf u conf).ownerId = SVal.vs u.uid :=
  ⟨rfl, rfl, rfl, rfl, rfl, rfl, rfl, rfl, rfl, rfl, rfl, rfl⟩

lemma afterRequest_noRaise (m url : String) (data : Option RawConf)
    (nowIso : String) (world : HttpWorld)
    (h : bodySafe m url world = true) :
    isRaise (afterRequest m url data world nowIso) = false := by
  cases world with
  | netFail msg => rfl
  | resp s body =>
    cases body with
    | empty =>
        by_cases hs : (s == 200 || s == 201) = true <;>
          simp [afterRequest, hs, isRaise]
    | rawText t =>
        by_cases hs : (s == 200 || s == 201) = true <;>
          simp [afterRequest, hs, isRaise]
    | jsonBody v =>
        by_cases hs : (s == 200 || s == 201) = true
        · by_cases hp : (m == "POST" && containsSub url "conferences") = true
          · cases v with
            | jobj fs => simp [afterRequest, hs, hp, isRaise]
            | js s2 =>
                simp only [bodySafe] at h
                rw [if_pos hp, if_pos hs] at h
                simp at h
            | jn n2 =>
                simp only [bodySafe] at h
                rw [if_pos hp, if_pos hs] at h
                simp at h
            | jb b2 =>
                simp only [bodySafe] at h
                rw [if_pos hp, if_pos hs] at h
                simp at h
            | jnull =>
                simp only [bodySafe] at h
                rw [if_pos hp, if_pos hs] at h
                simp at h
            | jarr xs2 =>
                simp only [bodySafe] at h
                rw [if_pos hp, if_pos hs] at h
                simp at h
          · simp [afterRequest, hs, hp, isRaise]
        · simp [afterRequest, hs, isRaise]

lemma apiCall_eq_afterRequest {method endpoint : String}
    {accessToken sessionToken configToken : Option String}
    {data : Option RawConf} {world : HttpWorld} {nowIso : String} {t : String}
    (htok : (accessToken.orElse fun _ => sessionToken).orElse
        (fun _ => configToken) = some t)
    (hm : methodSupported method = true)
    (hp : postConfSafe method endpoint data = true) :
    apiCall method endpoint accessToken sessionToken configToken data world nowIso
      = afterRequest (pyUpper method) (mkUrl endpoint) data world nowIso := by
  simp only [apiCall, htok]
  by_cases hg : (pyUpper method == "GET") = true
  · rw [if_pos hg]
  · rw [if_neg hg]
    by_cases hpo : (pyUpper method == "POST") = true
    · rw [if_pos hpo]
      by_cases hc : containsSub (pyLower endpoint) "conferences" = true
      · rw [if_pos hc]
        unfold postConfSafe at hp
        rw [if_pos (by rw [Bool.and_eq_true]; exact ⟨hpo, hc⟩)] at hp
        cases data with
        | none => rw [Option.elim_none] at hp; exact absurd hp (by simp)
        | some dd =>
          rw [Option.elim_some]
          unfold cohostsIterOk at hp
          rw [Option.elim_some] at hp
          unfold postConfGuard
          by_cases ht : pyTruthy (rawGetD dd "cohosts"
              (rawGetD dd "cohosts" (SVal.varr []))) = true
          · rw [if_pos ht]
            have hok : (match rawGetD dd "cohosts" (rawGetD dd "cohosts" (SVal.varr [])) with
                | SVal.varr _ => true | SVal.vs _ => true | _ => false) = true := by
              rcases (Bool.or_eq_true _ _).mp hp with h1 | h1
              · rw [ht] at h1
                exact absurd h1 (by simp)
              · exact h1
            rcases hch : rawGetD dd "cohosts" (rawGetD dd "cohosts" (SVal.varr []))
                with s2 | n2 | b2 | xs2 | _
            · rfl
            · rw [hch] at hok; simp at hok
            · rw [hch] at hok; simp at hok
            · rfl
            · rw [hch] at hok; simp at hok
          · rw [if_neg ht]
      · rw [if_neg hc]
    · rw [if_neg hpo]
      by_cases hpu : (pyUpper method == "PUT") = true
      · rw [if_pos hpu]
      · rw [if_neg hpu]
        by_cases hd : (pyUpper method == "DELETE") = true
        · rw [if_pos hd]
        · exfalso
          simp only [methodSupported, Bool.or_eq_true] at hm
          rcases hm with ((h1 | h1) | h1) | h1
          · exact hg h1
          · exact hpo h1
          · exact hpu h1
          · exact hd h1

lemma apiCall_unsupported {method endpoint : String}
    {accessToken sessionToken configToken : Option String}
    {data : Option RawConf} {world : HttpWorld} {nowIso : String} {t : String}
    (htok : (accessToken.orElse fun _ => sessionToken).orElse
        (fun _ => configToken) = some t)
    (hm : methodSupported method = false) :
    apiCall method endpoint accessToken sessionToken configToken data world nowIso
      = ApiResult.errUnsupportedMethod method := by
  unfold methodSupported at hm
  rw [Bool.or_eq_false_iff] at hm
  obtain ⟨hm, hd⟩ := hm
  rw [Bool.or_eq_false_iff] at hm
  obtain ⟨hm, hpu⟩ := hm
  rw [Bool.or_eq_false_iff] at hm
  obtain ⟨hg, hpo⟩ := hm
  simp only [apiCall, htok]
  simp [hg, hpo, hpu, hd]

/-- C9 (amended). For every `api_call` whose arguments avoid the
unguarded attribute accesses of the POST-conferences path (`safeArgs`:
the payload is an actual dict with an iterable truthy cohosts value,
and a 2xx JSON body parses to a dict), the call returns a value or an
explicit error value — never an exception; with a token present and a
supported method, a network failure becomes the error value carrying
its message, any non-2xx response becomes an error value carrying
detail and the status code, and a 2xx non-JSON body is wrapped as
`result: rawText`. `TelemostAPI.get_conferences` likewise turns a
network failure into an error value with the message. -/
theorem api_call_totality
    (method endpoint : String) (accessToken sessionToken configToken : Option String)
    (data : Option RawConf) (world : HttpWorld) (nowIso : String)
    (hsafe : safeArgs method endpoint data world = true) :
    isRaise (apiCall method endpoint accessToken sessionToken configToken
        data world nowIso) = false
    ∧ (∀ t, (accessToken.orElse fun _ => sessionToken).orElse
          (fun _ => configToken) = some t →
        methodSupported method = true →
          (∀ msg, world = HttpWorld.netFail msg →
            apiCall method endpoint accessToken sessionToken configToken
              data world nowIso = ApiResult.errNetwork msg)
          ∧ (∀ s b, world = HttpWorld.resp s b → (s == 200 || s == 201) = false →
              ∃ eb, apiCall method endpoint accessToken sessionToken configToken
                data world nowIso = ApiResult.errHttp eb s)
          ∧ (∀ s txt, world = HttpWorld.resp s (HttpBody.rawText txt) →
              (s == 200 || s == 201) = true →
              apiCall method endpoint accessToken sessionToken configToken
                data world nowIso = ApiResult.resultText txt))
    ∧ (∀ tok msg, getConferencesClient tok (HttpWorld.netFail msg)
        = GetConfsResult.gerr msg) := by
  obtain ⟨hp, hb⟩ := (Bool.and_eq_true _ _).mp hsafe
  refine ⟨?_, ?_, fun tok msg => rfl⟩
  · cases htok : (accessToken.orElse fun _ => sessionToken).orElse
        (fun _ => configToken) with
    | none => simp [apiCall, htok, isRaise]
    | some t =>
        by_cases hm : methodSupported method = true
        · rw [apiCall_eq_afterRequest htok hm hp]
          exact afterRequest_noRaise _ _ _ _ _ hb
        · rw [apiCall_unsupported htok ((Bool.not_eq_true _) ▸ hm)]
          rfl
  · intro t htok hm
    refine ⟨?_, ?_, ?_⟩
    · intro msg hw
      subst hw
      rw [apiCall_eq_afterRequest htok hm hp]
      rfl
    · intro s b hw hs
      subst hw
      rw [apiCall_eq_afterRequest htok hm hp]
      cases b with
      | empty => exact ⟨.notJson, by simp [afterRequest, hs]⟩
      | rawText t2 => exact ⟨.notJson, by simp [afterRequest, hs]⟩
      | jsonBody v => exact ⟨.json v, by simp [afterRequest, hs]⟩
    · intro s txt hw hs
      subst hw
      rw [apiCall_eq_afterRequest htok hm hp]
      simp [afterRequest, hs]

/-- C9 counterexample. Invoking `api_call` on the POST-conferences
path with its own default payload `data=None` (exactly what
`create_conference(token, None)` does) raises `AttributeError` at
`data.get('cohosts', ...)` before the request is even sent — the
exception escapes the client's public boundary, refuting the claim
that every public operation returns a value or an error value and
never raises. -/
theorem api_call_none_payload_raises :
    apiCall "POST" "conferences" (some "tok") none none none
      (HttpWorld.resp 201 HttpBody.empty) "T" = ApiResult.raisesAttrError :=
  rfl

/-- Witness for C9 at concrete inputs. -/
theorem api_call_totality_witness :
    safeArgs "GET" "conferences" none (HttpWorld.netFail "boom") = true
    ∧ (isRaise (apiCall "GET" "conferences" (some "tok") none none none
          (HttpWorld.netFail "boom") "T") = false
       ∧ (∀ t, ((some "tok" : Option String).orElse fun _ => (none : Option String)).orElse
            (fun _ => (none : Option String)) = some t →
          methodSupported "GET" = true →
            (∀ msg, HttpWorld.netFail "boom" = HttpWorld.netFail msg →
              apiCall "GET" "conferences" (some "tok") none none none
                (HttpWorld.netFail "boom") "T" = ApiResult.errNetwork msg)
            ∧ (∀ s b, HttpWorld.netFail "boom" = HttpWorld.resp s b →
                (s == 200 || s == 201) = false →
                ∃ eb, apiCall "GET" "conferences" (some "tok") none none none
                  (HttpWorld.netFail "boom") "T" = ApiResult.errHttp eb s)
            ∧ (∀ s txt, HttpWorld.netFail "boom" = HttpWorld.resp s (HttpBody.rawText txt) →
                (s == 200 || s == 201) = true →
                apiCall "GET" "conferences" (some "tok") none none none
                  (HttpWorld.netFail "boom") "T" = ApiResult.resultText txt))
       ∧ (∀ tok msg, getConferencesClient tok (HttpWorld.netFail msg)
          = GetConfsResult.gerr msg)) :=
  ⟨rfl, api_call_totality "GET" "conferences" (some "tok") none none none
    (HttpWorld.netFail "boom") "T" rfl⟩

/-- C10. Implicit default identity: a request without a `user_id`
parameter gets the caller id `"unknown"` (and, without `user_name`,
the name `"Unknown User"`); consequently any two such requests list
the same conference set — `get_user_conferences("unknown")` — and a
no-token create by such a request only ever adds rows owned by
`"unknown"`. -/
theorem default_identity_shared_owner
    (p1 p2 : List (String × String))
    (h1 : lookupParam p1 "user_id" = none)
    (h2 : lookupParam p2 "user_id" = none) :
    (getUserFromRequest p1).uid = "unknown"
    ∧ (getUserFromRequest p2).uid = "unknown"
    ∧ (lookupParam p1 "user_name" = none →
        (getUserFromRequest p1).uname = "Unknown User")
    ∧ (∀ (db : DB) (now : Nat) (remote : RemoteListResult),
        getConferencesRoute (getUserFromRequest p1) false remote now db
          = getConferencesRoute (getUserFromRequest p2) false remote now db
        ∧ getConferencesRoute (getUserFromRequest p1) false remote now db
          = (ListResponse.okList (getUserConferences db "unknown"), db))
    ∧ (∀ (payload : RawConf) (now : Nat) (db : DB) (r : Row),
        r ∈ ((createConferenceNoToken (getUserFromRequest p1) payload now db).2).rows
        → r ∈ db.rows ∨ r.ownerId = "unknown") := by
  have huid1 : (getUserFromRequest p1).uid = "unknown" := by
    simp [getUserFromRequest, h1]
  have huid2 : (getUserFromRequest p2).uid = "unknown" := by
    simp [getUserFromRequest, h2]
  refine ⟨huid1, huid2, ?_, ?_, ?_⟩
  · intro hn
    simp [getUserFromRequest, hn]
  · intro db now remote
    constructor
    · show (ListResponse.okList (getUserConferences db (getUserFromRequest p1).uid), db)
        = (ListResponse.okList (getUserConferences db (getUserFromRequest p2).uid), db)
      rw [huid1, huid2]
    · show (ListResponse.okList (getUserConferences db (getUserFromRequest p1).uid), db)
        = (ListResponse.okList (getUserConferences db "unknown"), db)
      rw [huid1]
  · intro payload now db r hr
    unfold createConferenceNoToken at hr
    rcases htry : trySave (createPayloadData (getUserFromRequest p1) payload db) now db
        with _ | ⟨dbN, i⟩
    · rw [htry] at hr
      exact Or.inl hr
    · rw [htry] at hr
      obtain ⟨ro, hrows, howner, _, _, _, _⟩ := trySave_inv htry
      have hr2 : r ∈ dbN.rows := hr
      rw [hrows] at hr2
      rcases List.mem_append.mp hr2 with hcase | hcase
      · exact Or.inl hcase
      · have hro : r = ro := List.mem_singleton.mp hcase
        have : textOf (SVal.vs (getUserFromRequest p1).uid) = some ro.ownerId := howner
        rw [textOf] at this
        have hoid : (getUserFromRequest p1).uid = ro.ownerId := Option.some_inj.mp this
        right
        rw [hro, ← hoid, huid1]

/-- Witness for C10 at concrete inputs. -/
theorem default_identity_shared_owner_witness :
    lookupParam [("user_name", "A")] "user_id" = none
    ∧ lookupParam [] "user_id" = none
    ∧ ((getUserFromRequest [("user_name", "A")]).uid = "unknown"
       ∧ (getUserFromRequest []).uid = "unknown"
       ∧ (lookupParam [("user_name", "A")] "user_name" = none →
           (getUserFromRequest [("user_name", "A")]).uname = "Unknown User")
       ∧ (∀ (db : DB) (now : Nat) (remote : RemoteListResult),
           getConferencesRoute (getUserFromRequest [("user_name", "A")]) false remote now db
             = getConferencesRoute (getUserFromRequest []) false remote now db
           ∧ getConferencesRoute (getUserFromRequest [("user_name", "A")]) false remote now db
             = (ListResponse.okList (getUserConferences db "unknown"), db))
       ∧ (∀ (payload : RawConf) (now : Nat) (db : DB) (r : Row),
           r ∈ ((createConferenceNoToken (getUserFromRequest [("user_name", "A")])
              payload now db).2).rows
           → r ∈ db.rows ∨ r.ownerId = "unknown")) :=
  ⟨rfl, rfl,
   default_identity_shared_owner [("user_name", "A")] [] rfl rfl⟩

end TelemostSpec
